import Mathlib

/-!
Shallow embedding of the protocol core of the Sensirion SPS30 driver
(`sps30/sps30.c`): the per-word CRC-8 checksum, the `sps30_do_cmd`
validate-and-strip decode loop, the transport layer `sps30_write_then_read`,
the wire-float decoder `sps30_float_to_int_clamped`, the data-ready poll loop
of `sps30_do_meas`, and a lock/interleaving model of the bus serialization in
`sps30_read_raw`.  Machine integers are modelled as `Nat`/`Int` with explicit
masking; fallible paths return `Except Int` carrying the negative errno the C
code returns; C undefined behavior (shift counts that are negative or reach
the 32-bit width) is modelled as `Option.none`.
-/

/-- Linux errno EIO = 5.  The driver returns `-5` (`-EIO`) for short transport
transfers and for data-integrity (checksum) failures. -/
def eioErr : Int := 5

/-- Linux errno ETIMEDOUT = 110.  `sps30_do_meas` returns `-110`
(`-ETIMEDOUT`) on its timeout path. -/
def etimedoutErr : Int := 110

/-- Sensor measures reliably up to 3000 ug/m3 (`SPS30_MAX_PM`). -/
def SPS30_MAX_PM : Nat := 3000

/-- Modelled from the spec: one most-significant-bit-first CRC-8 step with
polynomial 0x31, as performed by the Linux `lib/crc8.c` library (not part of
this repository), whose table the driver fills via
`crc8_populate_msb(sps30_crc8_table, 0x31)`. -/
def crc8_bit (c : Nat) : Nat :=
  if 128 ≤ c then (2 * c) % 256 ^^^ 0x31 else (2 * c) % 256

/-- Iterate `crc8_bit` over the eight bits of a byte. -/
def crc8_bits : Nat → Nat → Nat
  | 0, c => c
  | n + 1, c => crc8_bits n (crc8_bit c)

/-- Modelled from the spec: the Linux `crc8()` routine (not part of this
repository) over a byte list, MSB-first with polynomial 0x31, starting from
the given initial value.  Each input byte is xor-ed into the running CRC and
eight bit steps are applied. -/
def sps30_crc8 (data : List Nat) (crc : Nat) : Nat :=
  data.foldl (fun c b => crc8_bits 8 ((c ^^^ b) % 256)) crc

/-- The checksum of one 2-byte word, as the driver computes it:
`crc8(sps30_crc8_table, &buf[i], 2, CRC8_INIT_VALUE)` with
`CRC8_INIT_VALUE = 0xFF`. -/
def sps30_checksum (a b : Nat) : Nat := sps30_crc8 [a, b] 0xFF

/-- The per-word check performed in `sps30_do_cmd`: the received third byte
must equal the CRC-8 of the preceding two bytes. -/
def sps30_verify (a b c : Nat) : Bool := sps30_checksum a b == c

/-- The validate-and-strip loop of `sps30_do_cmd` (`for (i = 0; i < size;
i += 3)`).  Walks the received buffer three bytes at a time; on the first
checksum mismatch it stops with `-EIO`; otherwise it appends the two data
bytes.  The first component is the sequence of bytes the C code has written
through the caller's `data` pointer (written *before* a later triplet can
fail); the second is the early-return error, if any. -/
def sps30_decode : List Nat → List Nat × Option Int
  | a :: b :: c :: rest =>
    if sps30_checksum a b = c then
      (a :: b :: (sps30_decode rest).1, (sps30_decode rest).2)
    else ([], some (-eioErr))
  | _ => ([], none)

/-- The abstract bus transceiver consumed by the driver: `send` models
`i2c_master_send` (bytes sent, or a negative errno) and `recv` models
`i2c_master_recv` (return value paired with the bytes placed in the
receive buffer). -/
structure Transport where
  send : List Nat → Int
  recv : Nat → Int × List Nat

/-- Shallow embedding of `sps30_write_then_read`: a short or failed send
returns the bus error if negative, else `-EIO`; with no receive buffer it
stops; otherwise a short or failed receive likewise returns the bus error if
negative, else `-EIO`. -/
def sps30_write_then_read (tr : Transport) (txbuf : List Nat)
    (rx : Option Nat) : Except Int (List Nat) :=
  let ret := tr.send txbuf
  if ret ≠ (txbuf.length : Int) then
    Except.error (if ret < 0 then ret else -eioErr)
  else
    match rx with
    | none => Except.ok []
    | some n =>
      let rr := tr.recv n
      if rr.1 ≠ (n : Int) then
        Except.error (if rr.1 < 0 then rr.1 else -eioErr)
      else Except.ok rr.2

/-- Shallow embedding of `sps30_do_cmd` for the read-style commands
(`SPS30_READ_DATA_READY_FLAG`, `SPS30_READ_DATA`, `SPS30_READ_SERIAL`):
every two data bytes are checksummed, so the receive size is
`size + size / 2`; the 2-byte big-endian opcode is sent, the frame received,
then validated and stripped.  Returns the bytes written through the caller's
`data` pointer together with the result. -/
def sps30_do_cmd_read (tr : Transport) (cmd size : Nat) :
    List Nat × Except Int (List Nat) :=
  let size2 := size + size / 2
  match sps30_write_then_read tr [cmd / 256, cmd % 256] (some size2) with
  | Except.error e => ([], Except.error e)
  | Except.ok buf =>
    match sps30_decode (buf.take size2) with
    | (w, some e) => (w, Except.error e)
    | (w, none) => (w, Except.ok w)

/-- A well-formed frame for a list of 2-byte words: each word followed by its
checksum byte, as the sensor transmits it. -/
def sps30_frame : List (Nat × Nat) → List Nat
  | [] => []
  | w :: ws => w.1 :: w.2 :: sps30_checksum w.1 w.2 :: sps30_frame ws

/-- The payload of a list of words with the checksum bytes stripped. -/
def sps30_payload : List (Nat × Nat) → List Nat
  | [] => []
  | w :: ws => w.1 :: w.2 :: sps30_payload ws

/-- Shallow embedding of `sps30_float_to_int_clamped` on the 32-bit
big-endian bit pattern.  `val` is the pattern read as a C `int` (two's
complement), `exp = val >> 23` an arithmetic shift, `mantissa = val &
GENMASK(22, 0)`.  All arithmetic stays within `int` range on every defined
path; `none` models C undefined behavior: a shift count that is negative
(biased exponent 24 and above) or at least the 32-bit width (biased exponent
-32 and below). -/
def sps30_float_bits (v : Nat) : Option Int :=
  let mantissa : Nat := v % 2 ^ 23
  let exp0 : Int := ((v / 2 ^ 23 : Nat) : Int) - (if v < 2 ^ 31 then 0 else 512)
  if exp0 = 0 ∧ mantissa = 0 then
    some 0
  else
    let exp : Int := exp0 - 127
    if exp < 0 then
      if 32 ≤ -exp then none
      else some (((2 ^ 23 + mantissa) * 100 / 2 ^ 23 / 2 ^ (-exp).toNat : Nat) : Int)
    else
      if 23 < exp then none
      else
        let sh : Nat := (23 - exp).toNat
        let val2 : Nat := 2 ^ exp.toNat + mantissa / 2 ^ sh
        if SPS30_MAX_PM ≤ val2 then some ((SPS30_MAX_PM * 100 : Nat) : Int)
        else some ((val2 * 100 + mantissa % 2 ^ sh * 100 / 2 ^ sh : Nat) : Int)

/-- `get_unaligned_be32` on the first four bytes of a buffer. -/
def sps30_get_be32 (bytes : List Nat) : Nat :=
  bytes.getD 0 0 * 2 ^ 24 + bytes.getD 1 0 * 2 ^ 16 +
    bytes.getD 2 0 * 2 ^ 8 + bytes.getD 3 0

/-- `sps30_float_to_int_clamped` on a 4-byte big-endian buffer. -/
def sps30_float_to_int_clamped (fp : List Nat) : Option Int :=
  sps30_float_bits (sps30_get_be32 fp)

/-- The reconstructed integer part computed by the source for a nonnegative
biased exponent: `val = (1 << exp) + (mantissa >> shift)` with
`shift = 23 - exp`, written for exponent field `e` (so `exp = e - 127`). -/
def sps30_intpart (e m : Nat) : Nat :=
  2 ^ (e - 127) + m / 2 ^ (23 - (e - 127))

/-- The environment `sps30_do_meas` runs against: the outcome of the i-th
`SPS30_READ_DATA_READY_FLAG` command (a bus/integrity error, or the two
stripped payload bytes), the outcome of the `SPS30_READ_DATA` command (error,
or the stripped payload bytes), and whether the i-th
`msleep_interruptible(300)` was cut short by a signal (the C code discards
that return value). -/
structure MeasEnv where
  poll : Nat → Except Int (Nat × Nat)
  readData : Except Int (List Nat)
  sleepInterrupted : Nat → Bool

/-- Result of a `sps30_do_meas` run: how many data-ready polls were issued,
whether the `SPS30_READ_DATA` command was issued on the bus, and the return
value (error code, or the per-channel decoded values, `none` marking a
channel whose decode is C undefined behavior). -/
structure MeasResult where
  pollsIssued : Nat
  readDataIssued : Bool
  ret : Except Int (List (Option Int))

/-- The `while (tries--)` poll loop of `sps30_do_meas`, with C post-decrement
semantics: the condition reads `tries` and then decrements, so falling out of
the loop leaves `tries = -1` while breaking on iteration `k` leaves
`tries = 5 - k`.  Returns the final value of `tries` as the C code sees it,
the number of polls issued, and the early-return error (`-EIO` when a poll
fails), if any. -/
def sps30_poll_loop (poll : Nat → Except Int (Nat × Nat)) :
    Nat → Nat → Int × Nat × Option Int
  | _, 0 => (-1, 0, none)
  | i, t + 1 =>
    match poll i with
    | Except.error _ => ((t : Int), 1, some (-eioErr))
    | Except.ok bytes =>
      if bytes.2 = 1 then ((t : Int), 1, none)
      else
        let r := sps30_poll_loop poll (i + 1) t
        (r.1, r.2.1 + 1, r.2.2)

/-- Per-channel decode of `sps30_do_meas`:
`data[i] = sps30_float_to_int_clamped(&tmp[4 * i])` for `i < size`. -/
def sps30_decode_channels (buf : List Nat) (size : Nat) : List (Option Int) :=
  (List.range size).map fun i => sps30_float_to_int_clamped ((buf.drop (4 * i)).take 4)

/-- Shallow embedding of `sps30_do_meas`: run the poll loop from
`tries = 5`; a poll error returns `-EIO`; then `if (!tries)` returns
`-ETIMEDOUT`; otherwise the `SPS30_READ_DATA` command is issued and, on
success, the channels are decoded. -/
def sps30_do_meas (env : MeasEnv) (size : Nat) : MeasResult :=
  let pl := sps30_poll_loop env.poll 0 5
  match pl.2.2 with
  | some e => ⟨pl.2.1, false, Except.error e⟩
  | none =>
    if pl.1 = 0 then ⟨pl.2.1, false, Except.error (-etimedoutErr)⟩
    else
      match env.readData with
      | Except.error e => ⟨pl.2.1, true, Except.error e⟩
      | Except.ok buf => ⟨pl.2.1, true, Except.ok (sps30_decode_channels buf size)⟩

/-- One primitive bus transaction of the driver: a command send
(`i2c_master_send` of an opcode) or a receive (`i2c_master_recv`). -/
inductive BusAct where
  | send (cmd : Nat)
  | recv

/-- An event in a concurrent execution: taking the `state->lock` mutex,
releasing it, or performing a bus transaction, each tagged by the thread
(one of two concurrent callers of `sps30_read_raw`). -/
inductive BusEv where
  | lock (t : Bool)
  | unlock (t : Bool)
  | act (t : Bool) (a : BusAct)

/-- The event trace of one `sps30_read_raw` measurement read: the code takes
`state->lock`, runs the whole `sps30_do_meas` bus sequence `ops`, and only
then releases the lock (`mutex_lock` ... `sps30_do_meas` ...
`mutex_unlock`). -/
def sps30_locked_trace (t : Bool) (ops : List BusAct) : List BusEv :=
  BusEv.lock t :: (ops.map (BusEv.act t) ++ [BusEv.unlock t])

/-- Mutex semantics over an event trace, tracking the current holder:
a `lock` is only possible when the mutex is free, an `unlock` only by the
holder; bus transactions do not change the holder. -/
def lockOk : Option Bool → List BusEv → Bool
  | _, [] => true
  | none, BusEv.lock t :: r => lockOk (some t) r
  | some _, BusEv.lock _ :: _ => false
  | some t, BusEv.unlock u :: r => (t == u) && lockOk none r
  | none, BusEv.unlock _ :: _ => false
  | st, BusEv.act _ _ :: r => lockOk st r

/-- `Interleave xs ys zs`: `zs` is an interleaving of `xs` and `ys` that
preserves the order of each (the scheduler's freedom between two threads). -/
inductive Interleave : List BusEv → List BusEv → List BusEv → Prop where
  | nil : Interleave [] [] []
  | left {x xs ys zs} : Interleave xs ys zs → Interleave (x :: xs) ys (x :: zs)
  | right {y xs ys zs} : Interleave xs ys zs → Interleave xs (y :: ys) (y :: zs)

/-- The bus transactions `sps30_do_meas` performs: one
`SPS30_READ_DATA_READY_FLAG` send/recv pair per poll, then, when it gets that
far, the `SPS30_READ_DATA` send/recv pair. -/
def sps30_meas_bus_ops (npolls : Nat) (readIssued : Bool) : List BusAct :=
  (((List.range npolls).map fun _ => [BusAct.send 0x0202, BusAct.recv]).flatten) ++
    (if readIssued then [BusAct.send 0x0300, BusAct.recv] else [])

/-- Poll environment in which the data-ready flag byte is never 1 and no bus
error occurs; `SPS30_READ_DATA` would deliver a frame decoding to 1.0. -/
def envNeverReady : MeasEnv :=
  ⟨fun _ => Except.ok (0, 0), Except.ok [0x3F, 0x80, 0, 0], fun _ => false⟩

/-- Poll environment in which the flag byte becomes 1 exactly on the fifth
(and last) poll attempt. -/
def envReadyAtFifth : MeasEnv :=
  ⟨fun i => if i < 4 then Except.ok (0, 0) else Except.ok (0, 1),
   Except.ok [0x3F, 0x80, 0, 0], fun _ => false⟩

/-- Environment in which the first inter-poll sleep is interrupted by a
signal and the flag byte becomes 1 on the second poll. -/
def envSleepHit : MeasEnv :=
  ⟨fun i => if i = 0 then Except.ok (0, 0) else Except.ok (0, 1),
   Except.ok [0x3F, 0x80, 0, 0], fun _ => true⟩

/-- Environment whose `SPS30_READ_DATA` frame carries the encoding
0x4B800000: exponent field 151, mantissa 0 (the value 2^24), whose decode
performs `mantissa >> -1`, C undefined behavior. -/
def envBigExp : MeasEnv :=
  ⟨fun _ => Except.ok (0, 1), Except.ok [0x4B, 0x80, 0, 0], fun _ => false⟩

/-- Environment delivering a ready flag at once and a valid frame for 1.0. -/
def envReadyOne : MeasEnv :=
  ⟨fun _ => Except.ok (0, 1), Except.ok [0x3F, 0x80, 0, 0], fun _ => false⟩

/-- A transport whose device accepts every send and answers every receive
with the requested number of bytes. -/
def trOfFrame (frame : List Nat) : Transport :=
  ⟨fun tx => (tx.length : Int), fun n => ((n : Int), frame)⟩

/-- A transport whose send accepts 0 bytes (a short send, no bus error). -/
def trShortSend : Transport :=
  ⟨fun _ => 0, fun n => ((n : Int), [])⟩

/-- A transport answering the data-ready read with a frame whose checksum
byte is corrupted. -/
def trCorrupt : Transport :=
  trOfFrame [0, 0, sps30_checksum 0 0 + 1]

/-- A transport answering a 2-word read with a frame whose first word is
intact and whose second checksum byte is corrupted. -/
def trC5cex : Transport :=
  trOfFrame (sps30_frame [(0, 0)] ++ [0, 0, sps30_checksum 0 0 + 1])

/-- A transport answering a 2-word read with a frame whose first checksum
byte is corrupted (used as a witness instance). -/
def trC5wit : Transport :=
  trOfFrame (sps30_frame [(1, 2)] ++ [3, 4, sps30_checksum 3 4 + 1])

/-- Claim C1 (code evaluation at the failing input): when all 5 data-ready
polls complete without bus error and the flag byte is never 1
(`envNeverReady`), `sps30_do_meas` does NOT return the timeout error; the
`while (tries--)` loop leaves `tries = -1`, so `if (!tries)` is false, the
`SPS30_READ_DATA` command IS issued, and the stale data is returned as
success - contradicting the claimed `-ETIMEDOUT` with no data read. -/
theorem sps30_do_meas_never_ready_eval :
    sps30_do_meas envNeverReady 1 = ⟨5, true, Except.ok [some 100]⟩ := rfl

/-- Claim C2 (code evaluation at the failing input): when the flag byte
becomes 1 exactly on the fifth and last poll (`envReadyAtFifth`), the break
leaves `tries = 0`, so `if (!tries)` fires and `sps30_do_meas` returns
`-ETIMEDOUT` without issuing the read-data command - contradicting the
claimed successful read. -/
theorem sps30_do_meas_ready_at_fifth_eval :
    sps30_do_meas envReadyAtFifth 1 = ⟨5, false, Except.error (-etimedoutErr)⟩ := rfl

/-- Claim C4: for every 2-byte word, the driver's own verification accepts
the driver's own checksum, and the `sps30_do_cmd` decode loop accepts (and
strips) a single word followed by its checksum - the CRC-8 is computed
independently over each 2-byte word with a fresh 0xFF initial value. -/
theorem sps30_checksum_self_consistent (a b : Nat) :
    sps30_verify a b (sps30_checksum a b) = true ∧
      sps30_decode [a, b, sps30_checksum a b] = ([a, b], none) := by
  constructor
  · simp [sps30_verify]
  · simp [sps30_decode]

/-- Branch evaluation of the float decode for a sub-one value: exponent
field `e` in [96, 126] (biased exponent in [-31, -1], shift count below the
32-bit width), mantissa `m`. -/
theorem sps30_float_bits_sub_one (e m : Nat) (hm : m < 2 ^ 23)
    (h1 : 96 ≤ e) (h2 : e ≤ 126) :
    sps30_float_bits (2 ^ 23 * e + m) =
      some (((2 ^ 23 + m) * 100 / 2 ^ 23 / 2 ^ (127 - e) : Nat) : Int) := by
  have hdiv : (2 ^ 23 * e + m) / 2 ^ 23 = e := by
    rw [Nat.mul_add_div (by norm_num), Nat.div_eq_of_lt hm, Nat.add_zero]
  have hmod : (2 ^ 23 * e + m) % 2 ^ 23 = m := by
    rw [Nat.mul_add_mod, Nat.mod_eq_of_lt hm]
  have hv : 2 ^ 23 * e + m < 2 ^ 31 := by
    have : 2 ^ 23 * e + m < 2 ^ 23 * (e + 1) := by linarith
    have h3 : 2 ^ 23 * (e + 1) ≤ 2 ^ 23 * 127 := by
      exact Nat.mul_le_mul_left _ (by omega)
    calc 2 ^ 23 * e + m < 2 ^ 23 * 127 := by omega
      _ < 2 ^ 31 := by norm_num
  simp only [sps30_float_bits, hdiv, hmod]
  rw [if_pos hv, sub_zero]
  rw [if_neg (by simp only [Nat.cast_eq_zero]; omega : ¬(((e : Nat) : Int) = 0 ∧ m = 0))]
  rw [if_pos (by omega : ((e : Nat) : Int) - 127 < 0)]
  rw [if_neg (by omega : ¬(32 : Int) ≤ -(((e : Nat) : Int) - 127))]
  have hk : (-(((e : Nat) : Int) - 127)).toNat = 127 - e := by omega
  rw [hk]

/-- Branch evaluation of the float decode for exponent field `e` in
[127, 150] (biased exponent in [0, 23]): the source's `val`, clamp test and
fractional remainder, expressed over `e` and `m`. -/
theorem sps30_float_bits_main (e m : Nat) (hm : m < 2 ^ 23)
    (h1 : 127 ≤ e) (h2 : e ≤ 150) :
    sps30_float_bits (2 ^ 23 * e + m) =
      if 3000 ≤ 2 ^ (e - 127) + m / 2 ^ (150 - e) then some 300000
      else some (((2 ^ (e - 127) + m / 2 ^ (150 - e)) * 100 +
        m % 2 ^ (150 - e) * 100 / 2 ^ (150 - e) : Nat) : Int) := by
  have hdiv : (2 ^ 23 * e + m) / 2 ^ 23 = e := by
    rw [Nat.mul_add_div (by norm_num), Nat.div_eq_of_lt hm, Nat.add_zero]
  have hmod : (2 ^ 23 * e + m) % 2 ^ 23 = m := by
    rw [Nat.mul_add_mod, Nat.mod_eq_of_lt hm]
  have hv : 2 ^ 23 * e + m < 2 ^ 31 := by
    have : 2 ^ 23 * e + m < 2 ^ 23 * (e + 1) := by linarith
    have h3 : 2 ^ 23 * (e + 1) ≤ 2 ^ 23 * 256 := by
      exact Nat.mul_le_mul_left _ (by omega)
    calc 2 ^ 23 * e + m < 2 ^ 23 * 256 := by omega
      _ ≤ 2 ^ 31 := by norm_num
  simp only [sps30_float_bits, hdiv, hmod]
  rw [if_pos hv, sub_zero]
  rw [if_neg (by simp only [Nat.cast_eq_zero]; omega : ¬(((e : Nat) : Int) = 0 ∧ m = 0))]
  rw [if_neg (by omega : ¬((e : Nat) : Int) - 127 < 0)]
  rw [if_neg (by omega : ¬(23 : Int) < ((e : Nat) : Int) - 127)]
  have hsh : ((23 : Int) - (((e : Nat) : Int) - 127)).toNat = 150 - e := by omega
  have htn : (((e : Nat) : Int) - 127).toNat = e - 127 := by omega
  rw [hsh, htn]
  rfl

/-- Branch evaluation of the float decode for exponent field `e` at least
151: the biased exponent is at least 24, so `shift = 23 - exp` is negative
and `mantissa >> shift` is C undefined behavior, modelled as `none`. -/
theorem sps30_float_bits_ub_high (e m : Nat) (hm : m < 2 ^ 23)
    (h1 : 151 ≤ e) (h2 : e ≤ 255) :
    sps30_float_bits (2 ^ 23 * e + m) = none := by
  have hdiv : (2 ^ 23 * e + m) / 2 ^ 23 = e := by
    rw [Nat.mul_add_div (by norm_num), Nat.div_eq_of_lt hm, Nat.add_zero]
  have hmod : (2 ^ 23 * e + m) % 2 ^ 23 = m := by
    rw [Nat.mul_add_mod, Nat.mod_eq_of_lt hm]
  have hv : 2 ^ 23 * e + m < 2 ^ 31 := by
    have : 2 ^ 23 * e + m < 2 ^ 23 * (e + 1) := by linarith
    have h3 : 2 ^ 23 * (e + 1) ≤ 2 ^ 23 * 256 := by
      exact Nat.mul_le_mul_left _ (by omega)
    calc 2 ^ 23 * e + m < 2 ^ 23 * 256 := by omega
      _ ≤ 2 ^ 31 := by norm_num
  simp only [sps30_float_bits, hdiv, hmod]
  rw [if_pos hv, sub_zero]
  rw [if_neg (by simp only [Nat.cast_eq_zero]; omega : ¬(((e : Nat) : Int) = 0 ∧ m = 0))]
  rw [if_neg (by omega : ¬((e : Nat) : Int) - 127 < 0)]
  rw [if_pos (by omega : (23 : Int) < ((e : Nat) : Int) - 127)]

/-- The scaled fractional remainder `(fraction * 100) >> shift` is always
below 100, for any shift. -/
theorem sps30_frac_lt_100 (m k : Nat) : m % 2 ^ k * 100 / 2 ^ k < 100 := by
  rw [Nat.div_lt_iff_lt_mul (pow_pos (by norm_num) k)]
  have h2 := Nat.mod_lt m (show 0 < 2 ^ k by positivity)
  nlinarith

/-- In the non-clamped branch the result is at most 299999. -/
theorem sps30_final_le (w m k : Nat) (hw : w < 3000) :
    w * 100 + m % 2 ^ k * 100 / 2 ^ k ≤ 299999 := by
  have := sps30_frac_lt_100 m k
  omega

/-- Every defined output of the float decode lies in [0, 300000]. -/
theorem sps30_float_bits_range (v : Nat) (r : Int)
    (h : sps30_float_bits v = some r) : 0 ≤ r ∧ r ≤ 300000 := by
  have hm : v % 2 ^ 23 < 2 ^ 23 := Nat.mod_lt _ (by norm_num)
  have hA : (2 ^ 23 + v % 2 ^ 23) * 100 / 2 ^ 23 < 200 := by
    rw [Nat.div_lt_iff_lt_mul (by norm_num)]
    omega
  simp only [sps30_float_bits, SPS30_MAX_PM] at h
  split_ifs at h with hw hz hneg hub1 hub2 hcl hz2 hneg2 hub3 hub4 hcl2 <;>
  first
  | exact Option.noConfusion h
  | (injection h with h; subst h; norm_num; done)
  | (injection h with h; subst h
     refine ⟨Int.natCast_nonneg _, ?_⟩
     rw [show (300000 : Int) = ((300000 : Nat) : Int) from rfl, Nat.cast_le]
     first
     | exact le_trans (Nat.div_le_self _ _) (by omega)
     | exact le_trans (sps30_final_le _ _ _ (Nat.lt_of_not_le hcl)) (by norm_num)
     | exact le_trans (sps30_final_le _ _ _ (Nat.lt_of_not_le hcl2)) (by norm_num))

/-- Claim C3 (amended): the decoder is exact on boundary encodings: the
all-zero input yields 0; the encoding of 1.0 yields 100; every sign-clear
encoding with biased exponent in [0, 23] whose reconstructed integer part
reaches 3000 yields exactly 300000; and every nonzero sign-clear input with
biased exponent in [-31, -1] (the well-defined sub-one range) yields an
integer in [0, 99], which is at least 1 whenever the biased exponent is at
least -6 (exponent field at least 121). -/
theorem sps30_float_boundary_values :
    sps30_float_to_int_clamped [0, 0, 0, 0] = some 0 ∧
    sps30_float_to_int_clamped [0x3F, 0x80, 0, 0] = some 100 ∧
    (∀ e m : Nat, m < 2 ^ 23 → 127 ≤ e → e ≤ 150 → 3000 ≤ sps30_intpart e m →
      sps30_float_bits (2 ^ 23 * e + m) = some 300000) ∧
    (∀ e m : Nat, m < 2 ^ 23 → 96 ≤ e → e ≤ 126 →
      ∃ r : Int, sps30_float_bits (2 ^ 23 * e + m) = some r ∧
        0 ≤ r ∧ r ≤ 99 ∧ (121 ≤ e → 1 ≤ r)) := by
  refine ⟨rfl, rfl, ?_, ?_⟩
  · intro e m hm h1 h2 hip
    rw [sps30_float_bits_main e m hm h1 h2]
    have hsh : 23 - (e - 127) = 150 - e := by omega
    simp only [sps30_intpart, hsh] at hip
    rw [if_pos hip]
  · intro e m hm h1 h2
    rw [sps30_float_bits_sub_one e m hm h1 h2]
    have hA1 : 100 ≤ (2 ^ 23 + m) * 100 / 2 ^ 23 := by
      rw [Nat.le_div_iff_mul_le (by norm_num)]
      omega
    have hA2 : (2 ^ 23 + m) * 100 / 2 ^ 23 < 200 := by
      rw [Nat.div_lt_iff_lt_mul (by norm_num)]
      omega
    have hle : (2 ^ 23 + m) * 100 / 2 ^ 23 / 2 ^ (127 - e) ≤ 99 := by
      have h2k : 2 ≤ 2 ^ (127 - e) := by
        calc 2 = 2 ^ 1 := rfl
          _ ≤ 2 ^ (127 - e) := Nat.pow_le_pow_right (by norm_num) (by omega)
      calc (2 ^ 23 + m) * 100 / 2 ^ 23 / 2 ^ (127 - e)
          ≤ (2 ^ 23 + m) * 100 / 2 ^ 23 / 2 := Nat.div_le_div_left h2k (by norm_num)
        _ ≤ 199 / 2 := Nat.div_le_div_right (by omega)
        _ = 99 := by norm_num
    refine ⟨_, rfl, Int.natCast_nonneg _, by exact_mod_cast hle, ?_⟩
    intro he121
    have hge : 1 ≤ (2 ^ 23 + m) * 100 / 2 ^ 23 / 2 ^ (127 - e) := by
      rw [Nat.le_div_iff_mul_le (pow_pos (by norm_num) _)]
      have : 2 ^ (127 - e) ≤ 2 ^ 6 := Nat.pow_le_pow_right (by norm_num) (by omega)
      omega
    exact_mod_cast hge

/-- Claim C3 (counterexample to the claim as stated): the encoding
0x3C000000 (the value 2^-7, nonzero, biased exponent -7 < 0) decodes to 0,
not to an integer in [1, 99]; and for exponent field 151 the reconstructed
integer part is not even well-defined (negative shift count, C undefined
behavior), so inputs with integer part at least 3000 cannot be taken over
all encodings. -/
theorem sps30_float_sub_one_cex :
    sps30_float_to_int_clamped [0x3C, 0, 0, 0] = some 0 ∧
    sps30_float_bits (2 ^ 23 * 151 + 0) = none := ⟨rfl, rfl⟩

/-- Witness for C3: a concrete clamped encoding (exponent field 139, integer
part 4096) and a concrete sub-one encoding (exponent field 126, value 0.5,
result 50). -/
theorem sps30_float_boundary_values_witness :
    sps30_float_bits (2 ^ 23 * 139 + 0) = some 300000 ∧
    ∃ r : Int, sps30_float_bits (2 ^ 23 * 126 + 0) = some r ∧
      0 ≤ r ∧ r ≤ 99 ∧ (121 ≤ 126 → 1 ≤ r) := by
  constructor
  · exact sps30_float_boundary_values.2.2.1 139 0 (by norm_num) (by norm_num)
      (by norm_num) (by decide)
  · exact sps30_float_boundary_values.2.2.2 126 0 (by norm_num) (by norm_num)
      (by norm_num)

/-- Claim C10: for sign-clear inputs with biased exponent in [0, 23] every
shift is well-defined (the decode returns a value) and the non-clamped
result is at most 299999, so 300000 arises only from the explicit clamp
branch; for exponent field 151 and above (biased exponent at least 24) the
decode hits `mantissa >> (23 - exp)` with a negative shift count, so it is
well-defined only for exponent fields up to 150. -/
theorem sps30_float_shift_safety :
    (∀ e m : Nat, m < 2 ^ 23 → 127 ≤ e → e ≤ 150 →
      ∃ r : Int, sps30_float_bits (2 ^ 23 * e + m) = some r ∧
        (sps30_intpart e m < 3000 → r ≤ 299999)) ∧
    (∀ e m : Nat, m < 2 ^ 23 → 151 ≤ e → e ≤ 255 →
      sps30_float_bits (2 ^ 23 * e + m) = none) := by
  constructor
  · intro e m hm h1 h2
    rw [sps30_float_bits_main e m hm h1 h2]
    have hsh : 23 - (e - 127) = 150 - e := by omega
    by_cases hcl : 3000 ≤ 2 ^ (e - 127) + m / 2 ^ (150 - e)
    · rw [if_pos hcl]
      refine ⟨300000, rfl, ?_⟩
      intro hip
      simp only [sps30_intpart, hsh] at hip
      exact absurd hip (not_lt.mpr hcl)
    · rw [if_neg hcl]
      refine ⟨_, rfl, fun _ => ?_⟩
      exact_mod_cast sps30_final_le (2 ^ (e - 127) + m / 2 ^ (150 - e)) m (150 - e)
        (Nat.lt_of_not_le hcl)
  · intro e m hm h1 h2
    exact sps30_float_bits_ub_high e m hm h1 h2

/-- Witness for C10: the encoding of 1.0 (exponent field 127) is defined
with non-clamped result 100, and exponent field 151 is undefined. -/
theorem sps30_float_shift_safety_witness :
    (∃ r : Int, sps30_float_bits (2 ^ 23 * 127 + 0) = some r ∧
      (sps30_intpart 127 0 < 3000 → r ≤ 299999)) ∧
    sps30_float_bits (2 ^ 23 * 151 + 0) = none := by
  constructor
  · exact sps30_float_shift_safety.1 127 0 (by norm_num) (by norm_num) (by norm_num)
  · exact sps30_float_shift_safety.2 151 0 (by norm_num) (by norm_num) (by norm_num)

/-- If `sps30_do_meas` returns success, the returned values are exactly the
per-channel decodes of the read-data payload. -/
theorem sps30_do_meas_ok_shape (env : MeasEnv) (size : Nat)
    (vals : List (Option Int))
    (h : (sps30_do_meas env size).ret = Except.ok vals) :
    ∃ buf, env.readData = Except.ok buf ∧
      vals = sps30_decode_channels buf size := by
  simp only [sps30_do_meas] at h
  cases hpl : (sps30_poll_loop env.poll 0 5).2.2 with
  | some e => rw [hpl] at h; simp at h
  | none =>
    rw [hpl] at h
    by_cases htr : (sps30_poll_loop env.poll 0 5).1 = 0
    · rw [if_pos htr] at h
      simp at h
    · rw [if_neg htr] at h
      cases hrd : env.readData with
      | error e => rw [hrd] at h; simp at h
      | ok buf =>
        rw [hrd] at h
        simp at h
        exact ⟨buf, rfl, h.symm⟩

/-- Claim C6 (amended): a successful measurement read returns exactly `size`
decoded channel values, and every returned value whose decode is
well-defined lies in [0, 300000]; a channel whose 4-byte encoding makes the
decode undefined (for instance exponent field 151 and above) carries no such
guarantee. -/
theorem sps30_read_channels_shape (env : MeasEnv) (size : Nat)
    (h1 : 1 ≤ size) (h2 : size ≤ 4) (vals : List (Option Int))
    (h : (sps30_do_meas env size).ret = Except.ok vals) :
    vals.length = size ∧
      ∀ o ∈ vals, ∀ x : Int, o = some x → 0 ≤ x ∧ x ≤ 300000 := by
  obtain ⟨buf, _, rfl⟩ := sps30_do_meas_ok_shape env size vals h
  constructor
  · simp [sps30_decode_channels]
  · intro o ho x hx
    subst hx
    simp only [sps30_decode_channels, List.mem_map] at ho
    obtain ⟨i, _, hi⟩ := ho
    exact sps30_float_bits_range _ x hi

/-- Witness for C6: a concrete environment returning one channel decoding
to 100. -/
theorem sps30_read_channels_shape_witness :
    ([some (100 : Int)].length = 1 ∧
      ∀ o ∈ [some (100 : Int)], ∀ x : Int, o = some x →
        0 ≤ x ∧ x ≤ 300000) :=
  sps30_read_channels_shape envReadyOne 1 (by norm_num) (by norm_num)
    [some 100] rfl

/-- Claim C6 (counterexample to the claim as stated): with the frame
carrying encoding 0x4B800000 (exponent field 151) the measurement read
succeeds, but the single written value is the result of an undefined shift
(`mantissa >> -1`), not a value in [0, 300000]. -/
theorem sps30_read_channels_range_cex :
    (sps30_do_meas envBigExp 1).ret = Except.ok [none] := rfl

/-- Claim C8 (amended): whether any inter-poll sleep is interrupted has no
effect on the result of `sps30_do_meas` - the code discards the return
value of `msleep_interruptible(300)`, so a signal merely shortens the wait
and polling continues with the remaining retries. -/
theorem sps30_do_meas_sleep_invariant (env : MeasEnv) (f : Nat → Bool)
    (size : Nat) :
    sps30_do_meas { env with sleepInterrupted := f } size =
      sps30_do_meas env size := rfl

/-- Claim C8 (counterexample to the claim as stated): with the first sleep
interrupted (`envSleepHit.sleepInterrupted 0 = true`) the poll loop does not
abort with an I/O error: it performs a second poll and the read succeeds. -/
theorem sps30_do_meas_sleep_cex :
    sps30_do_meas envSleepHit 1 = ⟨2, true, Except.ok [some 100]⟩ ∧
      envSleepHit.sleepInterrupted 0 = true := ⟨rfl, rfl⟩

/-- Decoding a frame whose words are valid up to a corrupted checksum byte:
`-EIO` is reported, and exactly the payload of the words preceding the
corruption has been written through the caller's pointer. -/
theorem sps30_decode_corrupt (ws : List (Nat × Nat)) (a b c : Nat)
    (hc : c ≠ sps30_checksum a b) (rest : List Nat) :
    sps30_decode (sps30_frame ws ++ a :: b :: c :: rest) =
      (sps30_payload ws, some (-eioErr)) := by
  induction ws with
  | nil => simp [sps30_frame, sps30_payload, sps30_decode, Ne.symm hc]
  | cons w ws ih => simp [sps30_frame, sps30_payload, sps30_decode, ih]

/-- A frame is three bytes per word. -/
theorem sps30_frame_length (ws : List (Nat × Nat)) :
    (sps30_frame ws).length = 3 * ws.length := by
  induction ws with
  | nil => rfl
  | cons w ws ih => simp [sps30_frame, ih]; ring

/-- Claim C5 (amended): for every received frame in which exactly one
checksum byte is corrupted (words before and after it intact),
`sps30_do_cmd` returns the data-integrity error `-EIO` and never returns
wrong data as success; however, the payload bytes of the words preceding
the corrupted one have already been written through the caller's output
pointer, so the caller-visible buffer may carry that partial prefix (no
byte at or beyond the corrupted word is written). -/
theorem sps30_do_cmd_corrupt (ws1 ws2 : List (Nat × Nat)) (a b c cmd : Nat)
    (hc : c ≠ sps30_checksum a b) (tr : Transport)
    (hsend : tr.send [cmd / 256, cmd % 256] = 2)
    (hrecv : tr.recv (3 * (ws1.length + 1 + ws2.length)) =
      (((3 * (ws1.length + 1 + ws2.length) : Nat) : Int),
        sps30_frame ws1 ++ a :: b :: c :: sps30_frame ws2)) :
    sps30_do_cmd_read tr cmd (2 * (ws1.length + 1 + ws2.length)) =
      (sps30_payload ws1, Except.error (-eioErr)) := by
  have hsz : 2 * (ws1.length + 1 + ws2.length) +
      2 * (ws1.length + 1 + ws2.length) / 2 =
      3 * (ws1.length + 1 + ws2.length) := by omega
  have hlen : (sps30_frame ws1 ++ a :: b :: c :: sps30_frame ws2).length =
      3 * (ws1.length + 1 + ws2.length) := by
    simp [sps30_frame_length]
    ring
  simp only [sps30_do_cmd_read, hsz, sps30_write_then_read, hsend,
    List.length_cons, List.length_nil]
  norm_num
  rw [hrecv]
  norm_num
  rw [List.take_of_length_le (le_of_eq hlen)]
  rw [sps30_decode_corrupt ws1 a b c hc]

/-- Witness for C5: a concrete 2-word frame with the second checksum byte
corrupted - the error is returned and the first word's payload was already
written. -/
theorem sps30_do_cmd_corrupt_witness :
    sps30_do_cmd_read trC5wit 0x0300 4 = ([1, 2], Except.error (-eioErr)) := by
  have h := sps30_do_cmd_corrupt [(1, 2)] [] 3 4 (sps30_checksum 3 4 + 1) 0x0300
    (Nat.succ_ne_self _) trC5wit rfl rfl
  simpa [sps30_payload] using h

/-- Claim C5 (counterexample to the claim as stated): on a 2-word frame with
only the second checksum byte corrupted, `sps30_do_cmd` reports the error,
but the caller-visible output buffer is NOT unchanged: the first word's
bytes were already written through the caller's pointer. -/
theorem sps30_do_cmd_partial_write_cex :
    sps30_do_cmd_read trC5cex 0x0300 4 = ([0, 0], Except.error (-eioErr)) ∧
      ([0, 0] : List Nat) ≠ [] := ⟨rfl, by simp⟩

/-- Claim C7 (amended): readiness timeouts use `-ETIMEDOUT`, distinct from
`-EIO`; but a short transport transfer and a checksum (data-integrity)
failure are both surfaced as the same `-EIO` code, so those two kinds are
not distinguishable by the caller (an underlying bus error keeps its own
negative code). -/
theorem sps30_error_kinds (tr : Transport) (cmd size : Nat)
    (hs0 : 0 ≤ tr.send [cmd / 256, cmd % 256])
    (hs2 : tr.send [cmd / 256, cmd % 256] ≠ 2) :
    (sps30_do_cmd_read tr cmd size).2 = Except.error (-eioErr) ∧
    (∀ ws : List (Nat × Nat), ∀ a b c : Nat, c ≠ sps30_checksum a b →
      ∀ rest, (sps30_decode (sps30_frame ws ++ a :: b :: c :: rest)).2 =
        some (-eioErr)) ∧
    -etimedoutErr ≠ -eioErr ∧
    (sps30_do_meas envReadyAtFifth 1).ret = Except.error (-etimedoutErr) := by
  refine ⟨?_, ?_, by decide, rfl⟩
  · simp only [sps30_do_cmd_read, sps30_write_then_read, List.length_cons,
      List.length_nil]
    norm_num
    rw [if_neg hs2, if_neg (not_lt.mpr hs0)]
  · intro ws a b c hc rest
    rw [sps30_decode_corrupt ws a b c hc rest]

/-- Witness for C7: the short-send transport yields `-EIO`, and a concrete
corrupted frame yields the same `-EIO` from the decode loop. -/
theorem sps30_error_kinds_witness :
    (sps30_do_cmd_read trShortSend 0x0202 2).2 = Except.error (-eioErr) ∧
    (sps30_decode (sps30_frame [] ++
      0 :: 0 :: (sps30_checksum 0 0 + 1) :: [])).2 = some (-eioErr) := by
  constructor
  · exact (sps30_error_kinds trShortSend 0x0202 2 (by decide) (by decide)).1
  · exact (sps30_error_kinds trShortSend 0x0202 2 (by decide) (by decide)).2.1
      [] 0 0 _ (Nat.succ_ne_self _) []

/-- Claim C7 (counterexample to the claim as stated): a short transport
transfer and a corrupted-checksum frame produce the identical error code
`-5` (`-EIO`), so transport failures and integrity failures are not
mutually distinct error kinds. -/
theorem sps30_error_kinds_cex :
    (sps30_do_cmd_read trShortSend 0x0202 2).2 = Except.error (-5) ∧
    (sps30_do_cmd_read trCorrupt 0x0202 2).2 = Except.error (-5) := ⟨rfl, rfl⟩

/-- Interleaving with an exhausted left thread is the right thread alone. -/
theorem interleave_nil_left (ys : List BusEv) :
    ∀ zs, Interleave [] ys zs → zs = ys := by
  induction ys with
  | nil => intro zs h; cases h; rfl
  | cons y ys ih =>
    intro zs h
    cases h with
    | right h2 => rw [ih _ h2]

/-- Interleaving with an exhausted right thread is the left thread alone. -/
theorem interleave_nil_right (xs : List BusEv) :
    ∀ zs, Interleave xs [] zs → zs = xs := by
  induction xs with
  | nil => intro zs h; cases h; rfl
  | cons x xs ih =>
    intro zs h
    cases h with
    | left h2 => rw [ih _ h2]

/-- Sequential composition is one valid interleaving. -/
theorem interleave_append (xs ys : List BusEv) :
    Interleave xs ys (xs ++ ys) := by
  induction xs with
  | nil =>
    simp only [List.nil_append]
    induction ys with
    | nil => exact Interleave.nil
    | cons y ys ih => exact Interleave.right ih
  | cons x xs ih => exact Interleave.left ih

/-- While the left caller holds the mutex, the right caller's next event is
its `lock`, which mutex semantics block: the holder's bus transactions run
uninterrupted up to and including its `unlock`. -/
theorem interleave_held (t u : Bool) (other : List BusEv) :
    ∀ (body : List BusAct) (rest zs : List BusEv),
      Interleave (body.map (BusEv.act t) ++ BusEv.unlock t :: rest)
        (BusEv.lock u :: other) zs →
      lockOk (some t) zs = true →
      ∃ zs1, zs = body.map (BusEv.act t) ++ BusEv.unlock t :: zs1 ∧
        Interleave rest (BusEv.lock u :: other) zs1 ∧
        lockOk none zs1 = true := by
  intro body
  induction body with
  | nil =>
    intro rest zs h hok
    simp only [List.map_nil, List.nil_append] at h
    cases h with
    | left h2 =>
      rename_i zs'
      refine ⟨zs', by simp, h2, ?_⟩
      simpa [lockOk] using hok
    | right h2 => simp [lockOk] at hok
  | cons a body ih =>
    intro rest zs h hok
    simp only [List.map_cons, List.cons_append] at h
    cases h with
    | left h2 =>
      rename_i zs'
      obtain ⟨zs1, rfl, hi, hok1⟩ :=
        ih rest zs' h2 (by simpa [lockOk] using hok)
      exact ⟨zs1, by simp, hi, hok1⟩
    | right h2 => simp [lockOk] at hok

/-- Mirror image of `interleave_held` with the mutex holder on the right. -/
theorem interleave_held_right (t u : Bool) (other : List BusEv) :
    ∀ (body : List BusAct) (rest zs : List BusEv),
      Interleave (BusEv.lock u :: other)
        (body.map (BusEv.act t) ++ BusEv.unlock t :: rest) zs →
      lockOk (some t) zs = true →
      ∃ zs1, zs = body.map (BusEv.act t) ++ BusEv.unlock t :: zs1 ∧
        Interleave (BusEv.lock u :: other) rest zs1 ∧
        lockOk none zs1 = true := by
  intro body
  induction body with
  | nil =>
    intro rest zs h hok
    simp only [List.map_nil, List.nil_append] at h
    cases h with
    | right h2 =>
      rename_i zs'
      refine ⟨zs', by simp, h2, ?_⟩
      simpa [lockOk] using hok
    | left h2 => simp [lockOk] at hok
  | cons a body ih =>
    intro rest zs h hok
    simp only [List.map_cons, List.cons_append] at h
    cases h with
    | right h2 =>
      rename_i zs'
      obtain ⟨zs1, rfl, hi, hok1⟩ :=
        ih rest zs' h2 (by simpa [lockOk] using hok)
      exact ⟨zs1, by simp, hi, hok1⟩
    | left h2 => simp [lockOk] at hok

/-- Claim C9: `sps30_read_raw` holds `state->lock` around the whole
`sps30_do_meas` poll-then-read sequence, so every mutex-valid schedule of
two concurrent callers' traces is one complete locked trace followed by the
other - the bus traffic is never interleaved, and in particular every
send-then-receive pair of one caller completes before any command of the
other caller reaches the bus. -/
theorem sps30_read_raw_serialized (ops1 ops2 : List BusAct)
    (zs : List BusEv)
    (h : Interleave (sps30_locked_trace false ops1)
      (sps30_locked_trace true ops2) zs)
    (hok : lockOk none zs = true) :
    zs = sps30_locked_trace false ops1 ++ sps30_locked_trace true ops2 ∨
    zs = sps30_locked_trace true ops2 ++ sps30_locked_trace false ops1 := by
  unfold sps30_locked_trace at h
  cases h with
  | left h2 =>
    rename_i zs'
    have hok2 : lockOk (some false) zs' = true := by
      simpa [lockOk] using hok
    obtain ⟨zs1, rfl, hi, -⟩ :=
      interleave_held false true _ ops1 [] zs' h2 hok2
    rw [interleave_nil_left _ _ hi]
    left
    simp [sps30_locked_trace]
  | right h2 =>
    rename_i zs'
    have hok2 : lockOk (some true) zs' = true := by
      simpa [lockOk] using hok
    obtain ⟨zs1, rfl, hi, -⟩ :=
      interleave_held_right true false _ ops2 [] zs' h2 hok2
    rw [interleave_nil_right _ _ hi]
    right
    simp [sps30_locked_trace]

/-- Witness for C9: the sequential schedule of one poll-and-read caller and
one five-poll caller is mutex-valid, and the theorem pins it to one of the
two serialized shapes. -/
theorem sps30_read_raw_serialized_witness :
    sps30_locked_trace false (sps30_meas_bus_ops 1 true) ++
        sps30_locked_trace true (sps30_meas_bus_ops 5 false) =
      sps30_locked_trace false (sps30_meas_bus_ops 1 true) ++
        sps30_locked_trace true (sps30_meas_bus_ops 5 false) ∨
    sps30_locked_trace false (sps30_meas_bus_ops 1 true) ++
        sps30_locked_trace true (sps30_meas_bus_ops 5 false) =
      sps30_locked_trace true (sps30_meas_bus_ops 5 false) ++
        sps30_locked_trace false (sps30_meas_bus_ops 1 true) :=
  sps30_read_raw_serialized (sps30_meas_bus_ops 1 true)
    (sps30_meas_bus_ops 5 false) _ (interleave_append _ _) (by decide)
